import Mathlib

/-!
Verification development for the retrieval core of a RAG document-search
application.  The definitions below are shallow embeddings of the TypeScript
functions in `src/backend/lib/api/chat.ts` and
`src/backend/lib/api/documentProcessing.ts`; each definition carries а
reference to the source function it embeds.  Machine floating point is
embedded as exact real / rational arithmetic; JavaScript strings are embedded
as Lean `String` (character classes such as `\s` are modelled over their
ASCII range plus the Spanish accented letters actually used by the source).
-/

namespace KnowledgeAI

/-! ### String primitives (JS string operations used by the source) -/

/-- JS regex class `\s`, restricted to its ASCII range (the source only ever
feeds it text handled by these characters). -/
def isWSChar (c : Char) : Bool :=
  c == ' ' || c == '\t' || c == '\n' || c == '\r' || c == '\x0b' || c == '\x0c'

/-- JS `String.prototype.toLowerCase`, modelled on ASCII letters plus the
accented Spanish letters appearing in the source keyword lists. -/
def jsLowerChar (c : Char) : Char :=
  if 'A' ≤ c && c ≤ 'Z' then Char.ofNat (c.toNat + 32)
  else if c == 'Á' then 'á'
  else if c == 'É' then 'é'
  else if c == 'Í' then 'í'
  else if c == 'Ó' then 'ó'
  else if c == 'Ú' then 'ú'
  else if c == 'Ñ' then 'ñ'
  else if c == 'Ü' then 'ü'
  else c

/-- Lowercase an entire string (JS `toLowerCase`). -/
def jsToLower (s : String) : String :=
  String.mk (s.toList.map jsLowerChar)

/-- JS `String.prototype.trim` (whitespace modelled over its ASCII range):
drop whitespace from both ends. -/
def jsTrim (s : String) : String :=
  String.mk
    (((s.toList.dropWhile (fun c => isWSChar c)).reverse.dropWhile
        (fun c => isWSChar c)).reverse)

/-- Split a character list at every character satisfying `p`, keeping empty
pieces — the semantics of JS `String.prototype.split` on a single-character
class.  `acc` holds the current piece, reversed. -/
def splitCharsAux (p : Char → Bool) : List Char → List Char → List String
  | [], acc => [String.mk acc.reverse]
  | c :: rest, acc =>
    if p c then String.mk acc.reverse :: splitCharsAux p rest []
    else splitCharsAux p rest (c :: acc)

/-- JS `s.split(re)` for a single-character class `re`. -/
def splitChars (s : String) (p : Char → Bool) : List String :=
  splitCharsAux p s.toList []

/-- Does the first list occur at the head of the second one? -/
def startsWithSeq : List Char → List Char → Bool
  | [], _ => true
  | _ :: _, [] => false
  | p :: ps, t :: ts => p == t && startsWithSeq ps ts

/-- Does `pat` occur as a contiguous subsequence of the second list?
Models JS `String.prototype.includes`. -/
def containsSeq (pat : List Char) : List Char → Bool
  | [] => startsWithSeq pat []
  | t :: ts => startsWithSeq pat (t :: ts) || containsSeq pat ts

/-- JS `s.includes(pat)`. -/
def containsStr (s pat : String) : Bool :=
  containsSeq pat.toList s.toList

/-- JS `s.startsWith(pat)`. -/
def startsWithStr (s pat : String) : Bool :=
  startsWithSeq pat.toList s.toList

/-- JS `s.endsWith(pat)`. -/
def endsWithStr (s pat : String) : Bool :=
  startsWithSeq pat.toList.reverse s.toList.reverse

/-- JS `text.split(/\s+/).filter(Boolean)`: the nonempty maximal runs of
non-whitespace characters, in order.  (Splitting on every whitespace
character and dropping empty pieces yields exactly the same list as
splitting on whitespace runs and dropping empty pieces.) -/
def splitWS (s : String) : List String :=
  (splitChars s (fun c => isWSChar c)).filter (fun t => t ≠ "")

/-- JS `text.split(/[.!?]+/).map(s => s.trim()).filter(Boolean)` from
`isLikelyStructuralChunk` (documentProcessing.ts line 44). -/
def sentencesOf (text : String) : List String :=
  ((splitChars text (fun c => c == '.' || c == '!' || c == '?')).map jsTrim).filter
    (fun s => s ≠ "")

/-- JS `text.split(/\n+/).map(line => line.trim()).filter(Boolean)` from
`isLikelyStructuralChunk` (documentProcessing.ts line 34). -/
def linesOf (text : String) : List String :=
  ((splitChars text (fun c => c == '\n')).map jsTrim).filter (fun s => s ≠ "")

/-! ### Structural content filter
`isLikelyStructuralChunk`, documentProcessing.ts lines 28-83.  Each signal of
the source is a named definition; the original computes all of them in one
body before branching, and all are pure, so the factoring preserves the
function exactly. -/

/-- `meaningfulSentences.length > 0` (lines 44-46): the chunk has a sentence
with at least 6 whitespace-delimited words. -/
def hasMeaningfulSentence (text : String) : Bool :=
  ((sentencesOf text).filter (fun s => 6 ≤ (splitWS s).length)).length > 0

/-- TOC keyword list (line 48). -/
def tocKeywords : List String :=
  ["indice", "índice", "table of contents", "contenido", "contenidos", "contents"]

/-- Cover-page keyword list (line 49). -/
def coverKeywords : List String :=
  ["portada", "cover", "autor", "author", "versión", "version", "fecha",
   "confidencial", "revisión", "revision"]

/-- Consume the remainder of a `\d+(\.\d+)*` run: the input starts inside a
digit run; consume the digits, then any further `.digits` groups, and return
what follows the whole run. -/
def afterDigitGroups : List Char → List Char
  | [] => []
  | c :: rest =>
    if c.isDigit then afterDigitGroups rest
    else
      match c, rest with
      | '.', d :: rest' => if d.isDigit then afterDigitGroups rest' else '.' :: d :: rest'
      | _, _ => c :: rest

/-- Test of the JS regex `/^(\d+(\.\d+)*|[ivxlcdm]+\.)\s+/i` on a line
(line 54).  Maximal-munch parsing is equivalent to the regex here because no
shorter digit/roman run can ever satisfy the continuation. -/
def numberedLineTest (line : String) : Bool :=
  let cs := line.toList
  let digitBranch :=
    match cs with
    | c :: rest =>
      if c.isDigit then
        match afterDigitGroups rest with
        | d :: _ => isWSChar d
        | [] => false
      else false
    | [] => false
  let romanChar : Char → Bool := fun c =>
    ['i', 'v', 'x', 'l', 'c', 'd', 'm', 'I', 'V', 'X', 'L', 'C', 'D', 'M'].contains c
  let romanBranch :=
    let rs := cs.takeWhile romanChar
    if rs.isEmpty then false
    else
      match cs.drop rs.length with
      | '.' :: c :: _ => isWSChar c
      | _ => false
  digitBranch || romanBranch

/-- Test of the JS regex `/\.{3,}\s*\d+$/` on a line (line 55): the line ends
in at least three dots, optional whitespace, then at least one digit. -/
def dotLeaderTest (line : String) : Bool :=
  let r := line.toList.reverse
  let digits := r.takeWhile Char.isDigit
  let afterDigits := r.drop digits.length
  let ws := afterDigits.takeWhile (fun c => isWSChar c)
  let afterWs := afterDigits.drop ws.length
  1 ≤ digits.length && 3 ≤ (afterWs.takeWhile (fun c => c == '.')).length

/-- Character class `[a-zA-ZÁÉÍÓÚáéíóúÑñ]` (line 39). -/
def isSpanishAlpha (c : Char) : Bool :=
  ('a' ≤ c && c ≤ 'z') || ('A' ≤ c && c ≤ 'Z') ||
    "ÁÉÍÓÚáéíóúÑñ".toList.contains c

/-- `looksLikeToc` (lines 58-61). -/
def looksLikeToc (text : String) : Bool :=
  let lines := linesOf text
  let words := splitWS text
  let wordCount := words.length
  let avgWordsPerLine : ℚ :=
    if lines.length = 0 then wordCount else (wordCount : ℚ) / lines.length
  let lowerText := jsToLower text
  let hasTocKeyword := tocKeywords.any (fun k => containsStr lowerText k)
  let numberingLines := (lines.filter (fun l => numberedLineTest l)).length
  let dotLeaderLines := (lines.filter (fun l => dotLeaderTest l)).length
  let structuralLineFrac : ℚ :=
    if lines.length = 0 then 0
    else ((numberingLines + dotLeaderLines : ℕ) : ℚ) / lines.length
  (hasTocKeyword && decide ((1 : ℚ)/5 ≤ structuralLineFrac)) ||
    (decide ((3 : ℚ)/5 ≤ structuralLineFrac) && decide (avgWordsPerLine ≤ 8) &&
      decide (4 ≤ lines.length)) ||
    decide (3 ≤ dotLeaderLines)

/-- `looksLikeCover` (lines 63-67). -/
def looksLikeCover (text : String) : Bool :=
  let lines := linesOf text
  let wordCount := (splitWS text).length
  let lowerText := jsToLower text
  let hasCoverKeyword := coverKeywords.any (fun k => containsStr lowerText k)
  hasCoverKeyword && decide (wordCount ≤ 150) && decide (lines.length ≤ 15) &&
    !hasMeaningfulSentence text

/-- `highDigitShortText` (lines 69-72): the digit fraction among letters and
digits is at least 0.6, the text is at most 40 words, and has no meaningful
sentence. -/
def highDigitShortText (text : String) : Bool :=
  let wordCount := (splitWS text).length
  let digitCount := (text.toList.filter Char.isDigit).length
  let alphaCount := (text.toList.filter isSpanishAlpha).length
  let digitFrac : ℚ :=
    if alphaCount + digitCount = 0 then 0
    else (digitCount : ℚ) / ((alphaCount + digitCount : ℕ) : ℚ)
  decide ((3 : ℚ)/5 ≤ digitFrac) && decide (wordCount ≤ 40) &&
    !hasMeaningfulSentence text

/-- `veryLowSemantic` (lines 74-76). -/
def veryLowSemantic (text : String) : Bool :=
  let words := splitWS text
  ((words.map jsToLower).dedup.length ≤ 4 : Bool) && (words.length ≤ 10 : Bool)

/-- `isLikelyStructuralChunk` (documentProcessing.ts lines 28-83): detects
chunks that are likely covers, indexes, or tables of contents.  Empty text is
structural; a chunk containing a meaningful sentence is never structural;
otherwise any of the four signals classifies it as structural. -/
def isLikelyStructuralChunk (chunk : String) : Bool :=
  let text := jsTrim chunk
  if text.length = 0 then true
  else if hasMeaningfulSentence text then false
  else
    looksLikeToc text || looksLikeCover text || highDigitShortText text ||
      veryLowSemantic text

/-! ### Text segmenter
`splitIntoChunks`, `splitIntoSentences`, `getOverlapText`
(documentProcessing.ts lines 601-800). -/

/-- `text.replace(/\r\n/g, '\n').replace(/\r/g, '\n')` (line 606): the two
sequential global replaces amount to one left-to-right pass. -/
def normalizeNewlines : List Char → List Char
  | [] => []
  | '\r' :: '\n' :: rest => '\n' :: normalizeNewlines rest
  | '\r' :: rest => '\n' :: normalizeNewlines rest
  | c :: rest => c :: normalizeNewlines rest

/-- Scanner state for `splitOnBlankRuns`: either scanning normally, or inside
the whitespace run following a newline.  In the latter case `full` holds the
whitespace characters seen since that newline (reversed), `tail` those after
the last newline inside the run (reversed), and `sawNL` whether a second
newline occurred (which makes the run a paragraph separator). -/
inductive BlankScanMode where
  | norm : BlankScanMode
  | pend (full tail : List Char) (sawNL : Bool) : BlankScanMode

/-- One-pass splitter for the JS regex split `text.split(/\n\s*\n/)`
(line 610).  A separator is a newline, a greedy run of whitespace, and a
final newline, so it extends from a newline through the last newline of the
maximal whitespace run that follows it; whitespace after that last newline
belongs to the next piece.  `cur` is the current piece, reversed. -/
def splitBlankGo : List Char → List Char → BlankScanMode → List (List Char)
  | [], cur, .norm => [cur.reverse]
  | [], cur, .pend full tail sawNL =>
    if sawNL then [cur.reverse, tail.reverse]
    else [(full ++ '\n' :: cur).reverse]
  | c :: rest, cur, .norm =>
    if c == '\n' then splitBlankGo rest cur (.pend [] [] false)
    else splitBlankGo rest (c :: cur) .norm
  | c :: rest, cur, .pend full tail sawNL =>
    if isWSChar c then
      if c == '\n' then splitBlankGo rest cur (.pend (c :: full) [] true)
      else splitBlankGo rest cur (.pend (c :: full) (c :: tail) sawNL)
    else
      if sawNL then cur.reverse :: splitBlankGo rest (c :: tail) .norm
      else splitBlankGo rest (c :: (full ++ '\n' :: cur)) .norm

/-- `normalizedText.split(/\n\s*\n/).filter(p => p.trim().length > 0)`
(lines 606-610): paragraphs of the text, unfiltered pieces kept verbatim. -/
def splitParagraphs (text : String) : List String :=
  ((splitBlankGo (normalizeNewlines text.toList) [] .norm).map
      (fun cs => String.mk cs)).filter (fun p => 0 < (jsTrim p).length)

/-- Uppercase class `[A-ZÁÉÍÓÚÑ]` of the sentence-boundary lookahead
(line 694). -/
def sentenceUpper (c : Char) : Bool :=
  ('A' ≤ c && c ≤ 'Z') || ['Á', 'É', 'Í', 'Ó', 'Ú', 'Ñ'].contains c

/-- All matches of the global regex `/([.!?])\s+(?=[A-ZÁÉÍÓÚÑ])/g` as
`(index, length)` pairs (lines 694-699).  `pos` is the absolute position of
the head of the remaining input; the optional state records a pending
punctuation mark (its index) and the number of whitespace characters seen
since it.  The lookahead consumes nothing, so scanning resumes at the
character that witnessed it, which is exactly where `lastIndex` points. -/
def sentenceMarksGo : List Char → Nat → Option (Nat × Nat) → List (Nat × Nat)
  | [], _, _ => []
  | c :: rest, pos, none =>
    if c == '.' || c == '!' || c == '?' then
      sentenceMarksGo rest (pos + 1) (some (pos, 0))
    else sentenceMarksGo rest (pos + 1) none
  | c :: rest, pos, some (start, wsCount) =>
    if isWSChar c then sentenceMarksGo rest (pos + 1) (some (start, wsCount + 1))
    else
      let nextState : Option (Nat × Nat) :=
        if c == '.' || c == '!' || c == '?' then some (pos, 0) else none
      if 1 ≤ wsCount && sentenceUpper c then
        (start, 1 + wsCount) :: sentenceMarksGo rest (pos + 1) nextState
      else sentenceMarksGo rest (pos + 1) nextState

/-- Abbreviation list of `splitIntoSentences` (line 690). -/
def abbreviations : List String :=
  ["Sr", "Sra", "Srta", "Dr", "Dra", "Prof", "Ing", "Lic", "etc", "vs", "p",
   "ej", "pág", "págs"]

/-- JS `s.slice(-n)` for `n > 0`: the last `n` characters (all of them when
the string is shorter). -/
def lastChars (n : Nat) (cs : List Char) : List Char :=
  cs.drop (cs.length - n)

/-- The fixed-width fallback of `splitIntoSentences` (lines 727-748): cut
fragments of at most 800 characters, breaking at the last interior space
when it falls past the midpoint of the window. -/
def fragmentLoop (text : List Char) (ci : Nat) : List String :=
  if _h : ci < text.length then
    let fragment := (text.drop ci).take 800
    let lastSpace : Option Nat :=
      match fragment.reverse.findIdx? (fun c => c == ' ') with
      | some ri => some (fragment.length - 1 - ri)
      | none => none
    match lastSpace with
    | some ls =>
      if 400 < ls && ci + 800 < text.length then
        jsTrim (String.mk ((text.drop ci).take ls)) ::
          fragmentLoop text (ci + ls + 1)
      else jsTrim (String.mk fragment) :: fragmentLoop text (ci + 800)
    | none => jsTrim (String.mk fragment) :: fragmentLoop text (ci + 800)
  else []
termination_by text.length - ci
decreasing_by
  all_goals omega

/-- `splitIntoSentences` (documentProcessing.ts lines 687-752): split text at
sentence boundaries, skipping boundaries preceded by a known abbreviation;
when no sentence at all is produced, fall back to fixed-width slicing. -/
def splitIntoSentences (text : String) : List String :=
  let cs := text.toList
  let step := fun (st : List String × Nat) (m : Nat × Nat) =>
    let acc := st.1
    let lastIndex := st.2
    let potential := String.mk ((cs.drop lastIndex).take (m.1 + 1 - lastIndex))
    let beforePoint := jsToLower (String.mk (lastChars 10 potential.toList))
    let isAbbreviation :=
      abbreviations.any (fun ab => endsWithStr beforePoint (jsToLower ab ++ "."))
    if !isAbbreviation then
      let sentence := jsTrim potential
      ((if 0 < sentence.length then acc ++ [sentence] else acc), m.1 + m.2)
    else (acc, lastIndex)
  let folded := (sentenceMarksGo cs 0 none).foldl step ([], 0)
  let lastSentence := jsTrim (String.mk (cs.drop folded.2))
  let sentences :=
    if 0 < lastSentence.length then folded.1 ++ [lastSentence] else folded.1
  if sentences.length = 0 then
    (fragmentLoop cs 0).filter (fun f => 0 < f.length)
  else sentences

/-- `getOverlapText` (documentProcessing.ts lines 765-800): the last
`overlapSize` characters of a chunk, trimmed forward to the first natural
boundary (newline, then period, then space). -/
def getOverlapText (chunk : String) (overlapSize : Nat) : String :=
  if chunk.length ≤ overlapSize then chunk
  else
    let ov :=
      if overlapSize = 0 then chunk.toList
      else chunk.toList.drop (chunk.toList.length - overlapSize)
    let firstSpace := ov.findIdx? (fun c => c == ' ')
    let firstPeriod := ov.findIdx? (fun c => c == '.')
    let firstNewline := ov.findIdx? (fun c => c == '\n')
    let cutPoint : Nat :=
      match firstNewline, firstPeriod, firstSpace with
      | some i, _, _ => i + 1
      | none, some i, _ => i + 1
      | none, none, some i => i + 1
      | none, none, none => 0
    if 0 < cutPoint then jsTrim (String.mk (ov.drop cutPoint))
    else jsTrim (String.mk ov)

/-- Sentence sub-loop of `splitIntoChunks` (lines 633-650), threading the
state `(chunks so far, current chunk)`. -/
def chunkSentences (chunkSize overlap : Nat) :
    List String → List String × String → List String × String
  | [], st => st
  | sentence :: rest, (chunks, cur) =>
    let st1 :=
      if chunkSize < cur.length + sentence.length + 1 ∧ 0 < (jsTrim cur).length then
        (chunks ++ [jsTrim cur], getOverlapText cur overlap)
      else (chunks, cur)
    let cur2 := if 0 < st1.2.length then st1.2 ++ " " ++ sentence else st1.2 ++ sentence
    chunkSentences chunkSize overlap rest (st1.1, cur2)

/-- Per-paragraph body of the main loop of `splitIntoChunks`
(lines 615-670). -/
def chunkParagraphStep (chunkSize overlap : Nat) (st : List String × String)
    (paragraphRaw : String) : List String × String :=
  let paragraph := jsTrim paragraphRaw
  if chunkSize < paragraph.length then
    let st1 :=
      if 0 < (jsTrim st.2).length then
        (st.1 ++ [jsTrim st.2], getOverlapText st.2 overlap)
      else st
    chunkSentences chunkSize overlap (splitIntoSentences paragraph) st1
  else
    let spaceNeeded :=
      if 0 < st.2.length then paragraph.length + 2 else paragraph.length
    let st1 :=
      if chunkSize < st.2.length + spaceNeeded ∧ 0 < (jsTrim st.2).length then
        (st.1 ++ [jsTrim st.2], getOverlapText st.2 overlap)
      else st
    let cur2 :=
      if 0 < st1.2.length then st1.2 ++ "\n\n" ++ paragraph else st1.2 ++ paragraph
    (st1.1, cur2)

/-- `splitIntoChunks` (documentProcessing.ts lines 601-678): split text into
chunks of at most `chunkSize` characters (modulo oversized atomic
fragments), seeding each new chunk with an overlap tail of the previous
one.  The source performs no validation of `overlap` against `chunkSize`. -/
def splitIntoChunks (text : String) (chunkSize overlap : Nat) : List String :=
  let paragraphs := splitParagraphs text
  let final := paragraphs.foldl (chunkParagraphStep chunkSize overlap) ([], "")
  let chunks :=
    if 0 < (jsTrim final.2).length then final.1 ++ [jsTrim final.2] else final.1
  chunks.filter (fun c => 0 < c.length)

/-! ### Cosine similarity
`cosineSimilarity`, chat.ts lines 88-108.  JavaScript floating point is
embedded as exact real arithmetic. -/

/-- `a.reduce((sum, val, i) => sum + val * (b[i] || 0), 0)` (line 95).  The
function is only ever applied after the equal-length guard, where indexwise
pairing coincides with `zip`. -/
def dotProduct (a b : List ℝ) : ℝ :=
  ((a.zip b).map (fun p => p.1 * p.2)).sum

/-- `a.reduce((sum, val) => sum + val * val, 0)` (lines 98-99). -/
def sumSq (a : List ℝ) : ℝ :=
  (a.map (fun v => v * v)).sum

/-- Euclidean norm `Math.sqrt(...)` of lines 98-99. -/
noncomputable def magnitude (a : List ℝ) : ℝ :=
  Real.sqrt (sumSq a)

/-- `cosineSimilarity` (chat.ts lines 88-108): 0 on dimension mismatch, 0
when either magnitude is zero, otherwise the dot product divided by the
product of the magnitudes. -/
noncomputable def cosineSimilarity (a b : List ℝ) : ℝ :=
  if a.length ≠ b.length then 0
  else if magnitude a = 0 ∨ magnitude b = 0 then 0
  else dotProduct a b / (magnitude a * magnitude b)

/-! ### Chunk search
`searchSimilarChunks`, chat.ts lines 118-231. -/

/-- The `DocumentChunk` interface of chat.ts lines 41-48; `embedding` and
`similarity` are optional there. -/
structure DocumentChunk (α : Type) where
  id : String
  document_id : String
  chunk_index : Nat
  content : String
  embedding : Option (List α) := none
  similarity : Option α := none
deriving DecidableEq

/-- A raw `embedding` column value as it reaches the brute-force fallback
(chat.ts lines 158-176): either a numeric array, a JSON string (whose parse
is modelled by its outcome: `some v` when it parses to a numeric array,
`none` when parsing fails or yields a non-array), or a value of any other
type. -/
inductive RawEmbedding where
  | arr (v : List ℝ) : RawEmbedding
  | jsonStr (parsed : Option (List ℝ)) : RawEmbedding
  | other : RawEmbedding

/-- A `document_chunks` row as stored; `embedding` is NULL when absent. -/
structure StoredChunkRow where
  id : String
  document_id : String
  chunk_index : Nat
  content : String
  embedding : Option RawEmbedding

/-- The format dispatch of lines 160-176: arrays pass through, strings are
parsed, anything else is rejected (`null` rows fall into the unknown-format
branch). -/
def decodeStoredEmbedding : Option RawEmbedding → Option (List ℝ)
  | some (.arr v) => some v
  | some (.jsonStr parsed) => parsed
  | some .other => none
  | none => none

/-- Lines 156-195 of chat.ts, for one row: decode the raw embedding, reject
empty vectors and dimension mismatches, otherwise attach the cosine
similarity to the chunk (the rejected cases `return null` in the source and
are dropped by the subsequent `.filter(chunk => chunk !== null)`). -/
noncomputable def candidateOfRow (query : List ℝ) (r : StoredChunkRow) :
    Option (DocumentChunk ℝ) :=
  match decodeStoredEmbedding r.embedding with
  | none => none
  | some e =>
    if e.length = 0 then none
    else if e.length ≠ query.length then none
    else
      some { id := r.id, document_id := r.document_id,
             chunk_index := r.chunk_index, content := r.content,
             embedding := some e,
             similarity := some (cosineSimilarity query e) }

/-- Insert `x` into a list sorted descending by `key`, after all entries
whose key is at least `key x`.  Folding this over a list from the left is a
stable descending sort, the behaviour of the JS stable
`sort((a, b) => b.similarity - a.similarity)`. -/
def insertDescBy {β : Type} {α : Type} [LinearOrder α] (key : β → α) (x : β) :
    List β → List β
  | [] => [x]
  | y :: ys => if key x ≤ key y then y :: insertDescBy key x ys else x :: y :: ys

/-- Stable descending sort by `key` (JS `Array.prototype.sort` with
comparator `(a, b) => key b - key a`). -/
def sortDescBy {β : Type} {α : Type} [LinearOrder α] (key : β → α)
    (l : List β) : List β :=
  l.foldl (fun acc x => insertDescBy key x acc) []

/-- Sort key used on candidates: `similarity` with `undefined` read as 0
(`b.similarity - a.similarity` on line 198, all entries carrying a value
there; `chunk.similarity || 0` elsewhere). -/
noncomputable def simKey (c : DocumentChunk ℝ) : ℝ :=
  c.similarity.getD 0

/-- The brute-force ranking of lines 156-205: keep the valid candidates,
sort them by similarity descending, and return at most `limit * 2` of them.
No similarity threshold is applied. -/
noncomputable def bruteForceRank (query : List ℝ) (limit : Nat)
    (rows : List StoredChunkRow) : List (DocumentChunk ℝ) :=
  (sortDescBy simKey (rows.filterMap (candidateOfRow query))).take (limit * 2)

/-- The fetch limit of the fallback query (`.limit(200)`, line 140). -/
def FALLBACK_FETCH_LIMIT : Nat := 200

/-- The fallback fetch
`from('document_chunks').select(...).not('embedding', 'is', null).limit(200)`
(lines 136-140) against a database state `db`: the first 200 rows carrying a
non-null embedding. -/
def fetchEmbeddedChunks (db : List StoredChunkRow) : List StoredChunkRow :=
  (db.filter (fun r => r.embedding.isSome)).take FALLBACK_FETCH_LIMIT

/-- Outcome of the server-side RPC call (lines 122-126): rows, or an error
(function missing). -/
inductive RpcOutcome where
  | ok (rows : List (DocumentChunk ℝ)) : RpcOutcome
  | unavailable : RpcOutcome

/-- Outcome of the fallback table fetch (lines 136-144): a reachable
database state, or an error (which the source re-throws into the
surrounding catch). -/
inductive FetchOutcome where
  | ok (db : List StoredChunkRow) : FetchOutcome
  | failed : FetchOutcome

/-- Per-row processing of a successful RPC response (lines 212-223). -/
noncomputable def processRpcRow (query : List ℝ) (r : DocumentChunk ℝ) :
    DocumentChunk ℝ :=
  match r.similarity with
  | some _ => r
  | none =>
    match r.embedding with
    | some e => { r with similarity := some (cosineSimilarity query e) }
    | none => r

/-- `searchSimilarChunks` (chat.ts lines 118-231) as a function of the two
external outcomes: prefer the RPC result; on RPC error fall back to the
brute-force scan; on any further error (or no data) return the empty list —
the enclosing try/catch turns every thrown error into `[]`. -/
noncomputable def searchSimilarChunks (rpc : RpcOutcome) (fetch : FetchOutcome)
    (query : List ℝ) (limit : Nat) : List (DocumentChunk ℝ) :=
  match rpc with
  | .ok rows =>
    if 0 < rows.length then rows.map (processRpcRow query) else []
  | .unavailable =>
    match fetch with
    | .failed => []
    | .ok db =>
      let allChunks := fetchEmbeddedChunks db
      if allChunks.length = 0 then [] else bruteForceRank query limit allChunks

/-! ### Retrieval aggregator
The grouping/selection logic of `queryChat`, chat.ts lines 575-645.  The
floating-point similarity values of the source are embedded as exact
rationals, which keeps every comparison decidable. -/

/-- `MIN_SIMILARITY_THRESHOLD = 0.5` (line 578). -/
def MIN_SIMILARITY_THRESHOLD : ℚ := mkRat 1 2

/-- `HIGH_SIMILARITY_THRESHOLD = 0.6` (line 625). -/
def HIGH_SIMILARITY_THRESHOLD : ℚ := mkRat 3 5

/-- A document group during aggregation (`{ chunks, maxSimilarity }`,
line 582). -/
structure GroupData (α : Type) where
  chunks : List (DocumentChunk α)
  maxSimilarity : α
deriving DecidableEq

/-- `chunksByDocument.set` semantics of lines 593-606: update the existing
entry in place (append the chunk, raise the maximum on strict improvement)
or append a new entry — a JS `Map` preserves first-insertion order. -/
def updateGroup :
    List (String × GroupData ℚ) → String → DocumentChunk ℚ → ℚ →
      List (String × GroupData ℚ)
  | [], docId, c, sim => [(docId, ⟨[c], sim⟩)]
  | (d, g) :: rest, docId, c, sim =>
    if d = docId then
      (d, ⟨g.chunks ++ [c],
           if g.maxSimilarity < sim then sim else g.maxSimilarity⟩) :: rest
    else (d, g) :: updateGroup rest docId c sim

/-- Body of the grouping loop (lines 584-607) for one candidate: skip it
when its similarity (a missing value read as 0) is below
`MIN_SIMILARITY_THRESHOLD`, otherwise add it to its document's group. -/
def groupStep (groups : List (String × GroupData ℚ)) (c : DocumentChunk ℚ) :
    List (String × GroupData ℚ) :=
  let sim := c.similarity.getD 0
  if sim < MIN_SIMILARITY_THRESHOLD then groups
  else updateGroup groups c.document_id c sim

/-- The grouping loop of lines 584-607: skip candidates below
`MIN_SIMILARITY_THRESHOLD` (reading a missing similarity as 0), group the
rest by `document_id`, tracking each group's maximum similarity. -/
def groupChunksByDocument
    (candidates : List (DocumentChunk ℚ)) : List (String × GroupData ℚ) :=
  candidates.foldl groupStep []

/-- Lines 611-612: sort the document groups by maximum similarity,
descending (JS stable sort). -/
def sortDocumentGroups
    (groups : List (String × GroupData ℚ)) : List (String × GroupData ℚ) :=
  sortDescBy (fun p => p.2.maxSimilarity) groups

/-- The selection of lines 625-633: if more than one group reaches
`HIGH_SIMILARITY_THRESHOLD`, take the top two such groups, otherwise take
the single best group. -/
def selectDocuments
    (candidates : List (DocumentChunk ℚ)) : List (String × GroupData ℚ) :=
  let sorted := sortDocumentGroups (groupChunksByDocument candidates)
  let highSimilarityDocs :=
    sorted.filter (fun p => HIGH_SIMILARITY_THRESHOLD ≤ p.2.maxSimilarity)
  if 1 < highSimilarityDocs.length then highSimilarityDocs.take 2
  else sorted.take 1

/-- Invariant of the grouping map: each group's `maxSimilarity` is realized
by one of its chunks and bounds all of them, every chunk sits in the group
of its own `document_id`, and every grouped chunk passed the minimum
threshold. -/
def GroupInv (m : List (String × GroupData ℚ)) : Prop :=
  ∀ p ∈ m,
    p.2.maxSimilarity ∈ p.2.chunks.map (fun c => c.similarity.getD 0)
    ∧ ∀ c ∈ p.2.chunks,
        c.similarity.getD 0 ≤ p.2.maxSimilarity
        ∧ c.document_id = p.1
        ∧ MIN_SIMILARITY_THRESHOLD ≤ c.similarity.getD 0

/-! ### Query router
`isGreeting` (chat.ts lines 272-312), `isSystemQuestion` (lines 345-371),
and the dispatch at the head of `queryChat` (lines 511-530). -/

/-- Greeting phrase list (lines 276-296). -/
def greetingsList : List String :=
  ["hi", "hola", "hello", "hey", "buenos días", "buenos dias",
   "buenas tardes", "buenas noches", "saludos", "qué tal", "que tal",
   "cómo estás", "como estas", "cómo estás?", "como estas?", "buen día",
   "buen dia", "buena tarde", "buena noche"]

/-- `isGreeting` (chat.ts lines 272-312): the lowercased, trimmed message
either equals a greeting once punctuation is stripped (or starts with one
followed by a space), or is at most five tokens long and contains a
greeting as a substring.  (`split(/\s+/).length` on a trimmed string equals
the token count, except that the empty string gives 1 in JS and 0 here —
both at most 5, so the comparison agrees.) -/
def isGreeting (message : String) : Bool :=
  let lowerMessage := jsTrim (jsToLower message)
  let stripped :=
    jsTrim (String.mk (lowerMessage.toList.filter
      (fun c => !([',', '.', '!', '?', ';', ':'].contains c))))
  let isOnlyGreeting := greetingsList.any
    (fun g => stripped == g || startsWithStr stripped (g ++ " "))
  let hasGreeting := greetingsList.any (fun g => containsStr lowerMessage g)
  let isShortMessage := (splitWS lowerMessage).length ≤ 5
  isOnlyGreeting || (hasGreeting && isShortMessage)

/-- System-question keyword list (lines 350-367). -/
def systemKeywords : List String :=
  ["cuántos documentos", "cuantos documentos", "qué documentos",
   "que documentos", "qué información puedo", "que información puedo",
   "cómo funciona el sistema", "como funciona el sistema",
   "qué tipos de documentos", "que tipos de documentos",
   "cuántos archivos", "cuantos archivos", "cuántos archivos hay",
   "cuantos archivos hay", "cuántos documentos hay",
   "cuantos documentos hay"]

/-- `isSystemQuestion` (chat.ts lines 345-371). -/
def isSystemQuestion (question : String) : Bool :=
  systemKeywords.any (fun k => containsStr (jsToLower question) k)

/-- A source citation (`{ title, excerpt }`, chat.ts lines 32-35). -/
structure SourceCitation where
  title : String
  excerpt : String
deriving DecidableEq

/-- Response shape of `queryChat` (chat.ts lines 30-36). -/
structure ChatQueryResponse where
  answer : String
  sources : List SourceCitation

/-- Canned greeting responses of `answerGreeting` (lines 324-328). -/
def greetingResponses : List String :=
  ["¡Hola! 👋 Me da mucho gusto ayudarte. ¿En qué puedo asistirte hoy?",
   "¡Hola! 😊 Estoy aquí para ayudarte a encontrar información en tus documentos. ¿Qué te gustaría saber?",
   "¡Hola! Bienvenido. Cuéntame, ¿qué información necesitas buscar hoy?"]

/-- `answerGreeting` (chat.ts lines 321-335), with the random pick
`Math.floor(Math.random() * 3)` passed in: always an empty sources list. -/
def answerGreeting (pick : Fin 3) : ChatQueryResponse :=
  { answer := greetingResponses.getD pick.val "", sources := [] }

/-- Which handler the head of `queryChat` dispatches to
(lines 520-530): greeting first, then system question, then the retrieval
pipeline. -/
inductive RouteTaken where
  | greetingResponse : RouteTaken
  | systemResponse : RouteTaken
  | retrievalPipeline : RouteTaken
deriving DecidableEq

/-- The dispatch order of `queryChat` (chat.ts lines 520-530). -/
def routeQuestion (question : String) : RouteTaken :=
  if isGreeting question then .greetingResponse
  else if isSystemQuestion question then .systemResponse
  else .retrievalPipeline

/-- The two retrieval-side external calls of `queryChat`. -/
inductive RetrievalCall where
  | embedCall : RetrievalCall
  | chunkSearchCall : RetrievalCall
deriving DecidableEq

/-- Retrieval-side calls performed by `queryChat` for a question
(chat.ts lines 511-573): greetings and system questions return before any
embedding generation or chunk search; the content path reaches them only
after the document and chunk counts are both positive. -/
def queryChatRetrievalCalls (question : String) (documentsCount chunksCount : Nat) :
    List RetrievalCall :=
  match routeQuestion question with
  | .greetingResponse => []
  | .systemResponse => []
  | .retrievalPipeline =>
    if documentsCount = 0 then []
    else if chunksCount = 0 then []
    else [.embedCall, .chunkSearchCall]

/-! ### No-information detection and citation finalization
`indicatesNoInformation` (chat.ts lines 472-491) and steps 8 and 11 of
`queryChat` (lines 660-673 and 744-754). -/

/-- Phrase list of `indicatesNoInformation` (lines 477-487). -/
def noInfoPhrases : List String :=
  ["no tengo información", "no encontré información",
   "no tengo esa información", "no está en el contexto",
   "no está disponible", "no puedo responder", "no hay información",
   "no se encontró", "no se encuentra"]

/-- `indicatesNoInformation` (chat.ts lines 472-491): the lowercased answer
contains one of the fixed phrases. -/
def indicatesNoInformation (answer : String) : Bool :=
  noInfoPhrases.any (fun phrase => containsStr (jsToLower answer) phrase)

/-- The excerpt of a citation: `content.substring(0, 150)` (line 671). -/
def citationExcerpt (content : String) : String :=
  String.mk (content.toList.take 150)

/-- One entry of the `sources` array built on lines 662-673: the document's
display name plus a 150-character prefix of its best chunk. -/
def buildCitation (fileName : String) (bestChunkContent : String) :
    SourceCitation :=
  { title := fileName, excerpt := citationExcerpt bestChunkContent }

/-- Step 11 of `queryChat` (lines 744-754):
`shouldShowSources = !indicatesNoInformation(answer) && sources.length > 0`,
and the response carries `sources` exactly when that holds. -/
def finalizeSources (answer : String) (sources : List SourceCitation) :
    List SourceCitation :=
  if !indicatesNoInformation answer && decide (0 < sources.length) then sources
  else []

/-! ### Ingestion chunk loop
Step 6 of `processDocument`, documentProcessing.ts lines 236-270. -/

/-- Outcome of handling one semantic chunk inside the loop: embedding and
insert both succeed, the embedding call throws (caught at lines 267-269,
nothing stored), or the insert reports an error (logged at lines 260-262,
nothing stored). -/
inductive ChunkStepOutcome where
  | success : ChunkStepOutcome
  | embedFailed : ChunkStepOutcome
  | insertFailed : ChunkStepOutcome
deriving DecidableEq

/-- A stored `document_chunks` row as written by the loop (lines 251-258). -/
structure SavedChunkRow where
  document_id : String
  chunk_index : Nat
  content : String
deriving DecidableEq

/-- The chunk loop of `processDocument` (lines 236-270): iterate over the
semantic chunks with index `i`, inserting `(document_id, chunk_index := i,
content)` when the step succeeds and storing nothing when the embedding call
or the insert fails — the loop always continues with the next chunk. -/
def saveSemanticChunks (docId : String) (chunks : List String)
    (outcome : Nat → ChunkStepOutcome) : List SavedChunkRow :=
  (List.range chunks.length).filterMap (fun i =>
    match outcome i with
    | .success => some ⟨docId, i, chunks.getD i ""⟩
    | _ => none)

/-- Contiguity from zero: a list of indices is `0, 1, …, k` exactly when it
equals `List.range` of its own length. -/
def contiguousFromZero (idxs : List Nat) : Prop :=
  idxs = List.range idxs.length

/-! ## Theorems -/

/-! ### Shared helper lemmas -/

theorem insertDescBy_perm {β α : Type} [LinearOrder α] (key : β → α) (x : β) :
    ∀ l : List β, (insertDescBy key x l).Perm (x :: l)
  | [] => List.Perm.refl _
  | y :: ys => by
    unfold insertDescBy
    by_cases h : key x ≤ key y
    · rw [if_pos h]
      exact ((insertDescBy_perm key x ys).cons y).trans (List.Perm.swap x y ys)
    · rw [if_neg h]

theorem insertDescBy_pairwise {β α : Type} [LinearOrder α] (key : β → α)
    (x : β) : ∀ l : List β,
    l.Pairwise (fun a b => key b ≤ key a) →
    (insertDescBy key x l).Pairwise (fun a b => key b ≤ key a)
  | [], _ => List.pairwise_singleton _ x
  | y :: ys, h => by
    rw [List.pairwise_cons] at h
    unfold insertDescBy
    by_cases hxy : key x ≤ key y
    · rw [if_pos hxy, List.pairwise_cons]
      refine ⟨fun z hz => ?_, insertDescBy_pairwise key x ys h.2⟩
      rcases List.mem_cons.mp ((insertDescBy_perm key x ys).mem_iff.mp hz) with
        hz1 | hz1
      · exact hz1 ▸ hxy
      · exact h.1 z hz1
    · rw [if_neg hxy, List.pairwise_cons]
      refine ⟨fun z hz => ?_, List.pairwise_cons.mpr h⟩
      rcases List.mem_cons.mp hz with hz1 | hz1
      · exact hz1 ▸ (le_of_lt (lt_of_not_le hxy))
      · exact (h.1 z hz1).trans (le_of_lt (lt_of_not_le hxy))

theorem foldl_insertDescBy_perm {β α : Type} [LinearOrder α] (key : β → α) :
    ∀ (l acc : List β),
      (l.foldl (fun a x => insertDescBy key x a) acc).Perm (acc ++ l)
  | [], acc => by simp
  | x :: xs, acc => by
    have h1 := foldl_insertDescBy_perm key xs (insertDescBy key x acc)
    have h2 : (insertDescBy key x acc ++ xs).Perm (acc ++ x :: xs) :=
      (((insertDescBy_perm key x acc).append_right xs).trans
        List.perm_middle.symm)
    exact h1.trans h2

theorem sortDescBy_perm {β α : Type} [LinearOrder α] (key : β → α)
    (l : List β) : (sortDescBy key l).Perm l := by
  simpa using foldl_insertDescBy_perm key l []

theorem foldl_insertDescBy_pairwise {β α : Type} [LinearOrder α] (key : β → α) :
    ∀ (l acc : List β), acc.Pairwise (fun a b => key b ≤ key a) →
      (l.foldl (fun a x => insertDescBy key x a) acc).Pairwise
        (fun a b => key b ≤ key a)
  | [], _, h => h
  | x :: xs, acc, h =>
    foldl_insertDescBy_pairwise key xs (insertDescBy key x acc)
      (insertDescBy_pairwise key x acc h)

theorem sortDescBy_pairwise {β α : Type} [LinearOrder α] (key : β → α)
    (l : List β) :
    (sortDescBy key l).Pairwise (fun a b => key b ≤ key a) :=
  foldl_insertDescBy_pairwise key l [] (List.Pairwise.nil)

/-- A map that either keeps an element unchanged or drops it yields a
sublist. -/
theorem filterMap_keepOrDrop_sublist {α : Type} (g : α → Option α)
    (hg : ∀ a b, g a = some b → b = a) :
    ∀ l : List α, (l.filterMap g).Sublist l
  | [] => by simp
  | x :: xs => by
    rw [List.filterMap_cons]
    cases hgx : g x with
    | none => exact (filterMap_keepOrDrop_sublist g hg xs).cons x
    | some y =>
      rw [hg x y hgx]
      exact (filterMap_keepOrDrop_sublist g hg xs).cons₂ x

theorem filterMap_eq_self_of_forall_some {α : Type} (g : α → Option α)
    (l : List α) (h : ∀ x ∈ l, g x = some x) : l.filterMap g = l := by
  induction l with
  | nil => rfl
  | cons x xs ih =>
    rw [List.filterMap_cons, h x (List.mem_cons_self x xs),
      ih (fun y hy => h y (List.mem_cons_of_mem x hy))]

/-! ### C4 — meaningful prose is never structural -/

/-- C4: for every text chunk that contains at least one sentence (split on
periods, exclamation and question marks) with at least 6
whitespace-delimited words, `isLikelyStructuralChunk` returns `false`,
regardless of any table-of-contents, cover-page, high-digit, or
low-vocabulary signals present in the chunk. -/
theorem C4_meaningful_sentence_never_structural (chunk : String)
    (h : ∃ s ∈ sentencesOf (jsTrim chunk), 6 ≤ (splitWS s).length) :
    isLikelyStructuralChunk chunk = false := by
  obtain ⟨s, hs, hlen⟩ := h
  have hfilter : s ∈ (sentencesOf (jsTrim chunk)).filter
      (fun t => decide (6 ≤ (splitWS t).length)) :=
    List.mem_filter.mpr ⟨hs, by simpa using hlen⟩
  have hmean : hasMeaningfulSentence (jsTrim chunk) = true := by
    unfold hasMeaningfulSentence
    simpa using List.length_pos.mpr (List.ne_nil_of_mem hfilter)
  have hne : ¬ (jsTrim chunk).length = 0 := by
    intro h0
    have hdata : (jsTrim chunk).data = [] := List.length_eq_zero.mp h0
    have hempty : jsTrim chunk = "" := String.ext (by simpa using hdata)
    rw [hempty] at hs
    simp [sentencesOf, splitChars, splitCharsAux, jsTrim] at hs
  unfold isLikelyStructuralChunk
  rw [if_neg hne, if_pos hmean]

/-- Witness for C4 at a concrete prose chunk. -/
theorem C4_meaningful_sentence_never_structural_witness :
    (∃ s ∈ sentencesOf (jsTrim "This sentence has at least six words here."),
        6 ≤ (splitWS s).length)
    ∧ isLikelyStructuralChunk "This sentence has at least six words here."
        = false :=
  ⟨by decide,
    C4_meaningful_sentence_never_structural
      "This sentence has at least six words here." (by decide)⟩

/-! ### C7 — chunk_index values under per-chunk failures -/

/-- C7 counterexample: when the embedding call for the first chunk fails and
the second chunk succeeds, the stored `chunk_index` values are `[1]`, which
is not contiguous starting at 0. -/
theorem C7_counterexample_gap_in_indices :
    ((saveSemanticChunks "doc" ["a", "b"]
        (fun i => if i = 0 then .embedFailed else .success)).map
      (fun r => r.chunk_index)) = [1]
    ∧ ¬ contiguousFromZero
        ((saveSemanticChunks "doc" ["a", "b"]
            (fun i => if i = 0 then .embedFailed else .success)).map
          (fun r => r.chunk_index)) := by
  constructor
  · decide
  · unfold contiguousFromZero
    decide

/-- C7 (amended): the stored `chunk_index` values of a run are unique and
bounded by the chunk count, and they are contiguous starting at 0 exactly on
runs without per-chunk failures; a failed chunk leaves a gap. -/
theorem C7_chunk_index_properties (docId : String) (chunks : List String)
    (outcome : Nat → ChunkStepOutcome) :
    ((saveSemanticChunks docId chunks outcome).map
        (fun r => r.chunk_index)).Nodup
    ∧ (∀ r ∈ saveSemanticChunks docId chunks outcome,
        r.chunk_index < chunks.length ∧ r.document_id = docId)
    ∧ ((∀ i < chunks.length, outcome i = .success) →
        (saveSemanticChunks docId chunks outcome).map (fun r => r.chunk_index)
          = List.range chunks.length) := by
  have hmap : (saveSemanticChunks docId chunks outcome).map
      (fun r => r.chunk_index)
      = (List.range chunks.length).filterMap (fun i =>
          match outcome i with
          | .success => some i
          | _ => none) := by
    unfold saveSemanticChunks
    rw [List.map_filterMap]
    apply List.filterMap_congr
    intro i _
    cases outcome i <;> rfl
  refine ⟨?_, ?_, ?_⟩
  · rw [hmap]
    have hsub : ((List.range chunks.length).filterMap (fun i =>
        match outcome i with
        | .success => some i
        | _ => none)).Sublist (List.range chunks.length) := by
      refine filterMap_keepOrDrop_sublist _ ?_ _
      intro a b hab
      cases h : outcome a <;> rw [h] at hab <;> simp_all
    exact List.Nodup.sublist hsub (List.nodup_range _)
  · intro r hr
    unfold saveSemanticChunks at hr
    rcases List.mem_filterMap.mp hr with ⟨i, hi, hsome⟩
    rw [List.mem_range] at hi
    cases h : outcome i
    case success =>
      rw [h] at hsome
      simp only [Option.some.injEq] at hsome
      rw [← hsome]
      exact ⟨hi, rfl⟩
    case embedFailed => rw [h] at hsome; cases hsome
    case insertFailed => rw [h] at hsome; cases hsome
  · intro hall
    rw [hmap]
    apply filterMap_eq_self_of_forall_some
    intro i hi
    rw [hall i (List.mem_range.mp hi)]

/-- Witness for C7 at a failure-free run. -/
theorem C7_chunk_index_properties_witness :
    (∀ i < (["a", "b"] : List String).length,
        (fun _ : Nat => ChunkStepOutcome.success) i = .success)
    ∧ (saveSemanticChunks "d" ["a", "b"] (fun _ => .success)).map
        (fun r => r.chunk_index) = List.range 2 :=
  ⟨fun _ _ => rfl,
    (C7_chunk_index_properties "d" ["a", "b"] (fun _ => .success)).2.2
      (fun _ _ => rfl)⟩

/-! ### C8 — the segmenter does not validate `overlap >= chunkSize` -/

/-- C8: called with `overlap = 10 >= chunkSize = 5`, `splitIntoChunks`
silently accepts the arguments and returns an ordinary chunking (no
rejection of any kind exists in its body); for empty input it returns the
empty list. -/
theorem C8_overlap_not_validated_and_empty_input :
    splitIntoChunks "Hello world" 5 10 = ["Hello world"]
    ∧ (∀ chunkSize overlap : Nat, splitIntoChunks "" chunkSize overlap = []) :=
  ⟨by decide, fun _ _ => rfl⟩

/-! ### C9 — no-information answers suppress citations -/

/-- C9: if the synthesized answer contains (case-insensitively) any phrase
of the fixed no-information list, the response carries an empty sources
list even when candidate documents were selected; otherwise the built
citations — document display name plus a 150-character prefix of the
representative chunk — are returned as they are. -/
theorem C9_no_information_suppresses_sources :
    (∀ answer sources, indicatesNoInformation answer = true →
        finalizeSources answer sources = [])
    ∧ (∀ answer sources, indicatesNoInformation answer = false →
        finalizeSources answer sources = sources)
    ∧ (∀ fileName content,
        (buildCitation fileName content).title = fileName
        ∧ ((buildCitation fileName content).excerpt).toList
            = content.toList.take 150
        ∧ ((buildCitation fileName content).excerpt).length ≤ 150
        ∧ ((buildCitation fileName content).excerpt).toList
            ++ content.toList.drop 150 = content.toList) := by
  refine ⟨?_, ?_, ?_⟩
  · intro answer sources h
    unfold finalizeSources
    rw [h]
    simp
  · intro answer sources h
    unfold finalizeSources
    rw [h]
    cases sources <;> simp
  · intro fileName content
    refine ⟨rfl, rfl, ?_, ?_⟩
    · show (content.toList.take 150).length ≤ 150
      exact List.length_take_le 150 content.toList
    · exact List.take_append_drop 150 content.toList

/-- Witness for C9: one suppressed and one passed-through source list. -/
theorem C9_no_information_suppresses_sources_witness :
    finalizeSources "Lo siento, no tengo información sobre eso."
        [⟨"doc.pdf", "excerpt"⟩] = []
    ∧ finalizeSources "La política de vacaciones es de 15 días."
        [⟨"doc.pdf", "excerpt"⟩] = [⟨"doc.pdf", "excerpt"⟩] :=
  ⟨C9_no_information_suppresses_sources.1 _ _ (by decide),
    C9_no_information_suppresses_sources.2.1 _ _ (by decide)⟩

/-! ### C10 — classifier priority in queryChat -/

/-- C10: `queryChat` applies the classifiers in a fixed order — greeting
first, then system-meta, then content — so a question satisfying both the
greeting and the system-meta criteria is answered as a greeting (whose
response always has an empty sources list), and every question classified
as greeting or system-meta performs no embedding generation or chunk
search; `"hola cuántos documentos"` satisfies both criteria and routes to
the greeting handler. -/
theorem C10_router_priority :
    (∀ q, isGreeting q = true → routeQuestion q = .greetingResponse)
    ∧ (∀ pick, (answerGreeting pick).sources = [])
    ∧ (∀ q docs chunks, isGreeting q = true ∨ isSystemQuestion q = true →
        queryChatRetrievalCalls q docs chunks = [])
    ∧ (isGreeting "hola cuántos documentos" = true
        ∧ isSystemQuestion "hola cuántos documentos" = true
        ∧ routeQuestion "hola cuántos documentos" = .greetingResponse) := by
  refine ⟨?_, fun _ => rfl, ?_, by decide, by decide, by decide⟩
  · intro q h
    unfold routeQuestion
    rw [if_pos h]
  · intro q docs chunks h
    unfold queryChatRetrievalCalls routeQuestion
    rcases h with h | h
    · rw [if_pos h]
    · by_cases hg : isGreeting q = true
      · rw [if_pos hg]
      · rw [if_neg hg, if_pos h]

/-- Witness for C10 at concrete questions. -/
theorem C10_router_priority_witness :
    routeQuestion "hola" = .greetingResponse
    ∧ queryChatRetrievalCalls "hola cuántos documentos" 3 7 = [] :=
  ⟨C10_router_priority.1 "hola" (by decide),
    C10_router_priority.2.2.1 "hola cuántos documentos" 3 7
      (Or.inr (by decide))⟩

/-! ### C1 — aggregation and document selection -/

theorem updateGroup_inv (c : DocumentChunk ℚ)
    (hc : MIN_SIMILARITY_THRESHOLD ≤ c.similarity.getD 0) :
    ∀ m : List (String × GroupData ℚ), GroupInv m →
      GroupInv (updateGroup m c.document_id c (c.similarity.getD 0))
  | [], _ => by
    intro p hp
    rw [updateGroup] at hp
    rcases List.mem_singleton.mp hp with rfl
    exact ⟨List.mem_singleton.mpr rfl,
      fun d hd => by
        rcases List.mem_singleton.mp hd with rfl
        exact ⟨le_refl _, rfl, hc⟩⟩
  | (d, g) :: rest, hm => by
    intro p hp
    rw [updateGroup] at hp
    by_cases hd : d = c.document_id
    · rw [if_pos hd] at hp
      rcases List.mem_cons.mp hp with rfl | hp'
      · have hhead := hm (d, g) (List.mem_cons_self _ _)
        constructor
        · simp only [List.map_append]
          by_cases hlt : g.maxSimilarity < c.similarity.getD 0
          · rw [if_pos hlt]
            exact List.mem_append_right _ (by simp)
          · rw [if_neg hlt]
            exact List.mem_append_left _ hhead.1
        · intro e he
          rcases List.mem_append.mp he with he' | he'
          · have hprops := hhead.2 e he'
            refine ⟨?_, hprops.2.1, hprops.2.2⟩
            by_cases hlt : g.maxSimilarity < c.similarity.getD 0
            · rw [if_pos hlt]
              exact hprops.1.trans (le_of_lt hlt)
            · rw [if_neg hlt]
              exact hprops.1
          · rcases List.mem_singleton.mp he' with rfl
            refine ⟨?_, hd.symm, hc⟩
            by_cases hlt : g.maxSimilarity < e.similarity.getD 0
            · rw [if_pos hlt]
            · rw [if_neg hlt]
              exact le_of_not_lt hlt
      · exact hm p (List.mem_cons_of_mem _ hp')
    · rw [if_neg hd] at hp
      rcases List.mem_cons.mp hp with rfl | hp'
      · exact hm _ (List.mem_cons_self _ _)
      · exact updateGroup_inv c hc rest
          (fun q hq => hm q (List.mem_cons_of_mem _ hq)) p hp'

theorem groupFold_inv :
    ∀ (l : List (DocumentChunk ℚ)) (acc : List (String × GroupData ℚ)),
      GroupInv acc → GroupInv (l.foldl groupStep acc)
  | [], _, h => h
  | c :: cs, acc, h => by
    rw [List.foldl_cons]
    apply groupFold_inv cs
    unfold groupStep
    by_cases hlow : c.similarity.getD 0 < MIN_SIMILARITY_THRESHOLD
    · rw [if_pos hlow]
      exact h
    · rw [if_neg hlow]
      exact updateGroup_inv c (not_lt.mp hlow) acc h

theorem groupFold_skips_low :
    ∀ (l : List (DocumentChunk ℚ)) (acc : List (String × GroupData ℚ)),
      l.foldl groupStep acc
        = (l.filter (fun c =>
            decide (MIN_SIMILARITY_THRESHOLD ≤ c.similarity.getD 0))).foldl
            groupStep acc
  | [], _ => rfl
  | c :: cs, acc => by
    rw [List.foldl_cons, List.filter_cons]
    by_cases hlow : c.similarity.getD 0 < MIN_SIMILARITY_THRESHOLD
    · have hpred : decide (MIN_SIMILARITY_THRESHOLD ≤ c.similarity.getD 0)
        = false := by simp [not_le.mpr hlow]
      rw [hpred]
      have hskip : groupStep acc c = acc := by
        unfold groupStep
        rw [if_pos hlow]
      rw [if_neg (by simp), hskip]
      exact groupFold_skips_low cs acc
    · have hpred : decide (MIN_SIMILARITY_THRESHOLD ≤ c.similarity.getD 0)
        = true := by simp [not_lt.mp hlow]
      rw [hpred, if_pos rfl, List.foldl_cons]
      exact groupFold_skips_low cs (groupStep acc c)

/-- In a list sorted descending by `key`, the entries with `key` at least
`t` form a prefix; if at least two of them exist, taking the first two of
them is the same as taking the first two entries overall. -/
theorem filter_ge_take_two {β : Type} (key : β → ℚ) (t : ℚ) :
    ∀ l : List β, l.Pairwise (fun a b => key b ≤ key a) →
      2 ≤ (l.filter (fun x => decide (t ≤ key x))).length →
      (l.filter (fun x => decide (t ≤ key x))).take 2 = l.take 2 := by
  intro l hsort hlen
  match l, hsort with
  | [], _ => simp at hlen
  | x :: xs, hsort =>
    rw [List.pairwise_cons] at hsort
    by_cases hpx : t ≤ key x
    · rw [List.filter_cons_of_pos (by simpa using hpx)] at hlen ⊢
      match xs, hsort with
      | [], _ => simp at hlen
      | y :: ys, hsort =>
        rw [List.pairwise_cons] at hsort
        by_cases hpy : t ≤ key y
        · rw [List.filter_cons_of_pos (by simpa using hpy)]
          simp
        · exfalso
          have hys : (y :: ys).filter (fun x => decide (t ≤ key x)) = [] := by
            rw [List.filter_eq_nil_iff]
            intro z hz
            rcases List.mem_cons.mp hz with rfl | hz'
            · simpa using hpy
            · have : key z ≤ key y := hsort.2.1 z hz'
              simp only [decide_eq_true_eq]
              intro ht
              exact hpy (ht.trans this)
          rw [hys] at hlen
          simp at hlen
    · exfalso
      have hnil : (x :: xs).filter (fun x => decide (t ≤ key x)) = [] := by
        rw [List.filter_eq_nil_iff]
        intro z hz
        rcases List.mem_cons.mp hz with rfl | hz'
        · simpa using hpx
        · have : key z ≤ key x := hsort.1 z hz'
          simp only [decide_eq_true_eq]
          intro ht
          exact hpx (ht.trans this)
      rw [hnil] at hlen
      simp at hlen

/-- C1: `queryChat`'s aggregation discards candidates with similarity below
the minimum threshold 0.5, groups the rest by `document_id` recording each
group's maximum similarity, and sorts groups by maximum similarity
descending; if two or more groups have maximum similarity at least 0.6 then
exactly the top two such groups are selected (which are the top two groups
overall), otherwise exactly the single best group is selected.  On group
maxima `{0.75, 0.65, 0.55}` exactly the first two groups are selected, and
on `{0.55, 0.52}` exactly the single group with maximum 0.55. -/
theorem C1_aggregation_selection :
    (∀ candidates : List (DocumentChunk ℚ),
        groupChunksByDocument candidates
          = groupChunksByDocument (candidates.filter (fun c =>
              decide (MIN_SIMILARITY_THRESHOLD ≤ c.similarity.getD 0))))
    ∧ (∀ candidates : List (DocumentChunk ℚ),
        GroupInv (groupChunksByDocument candidates))
    ∧ (∀ candidates : List (DocumentChunk ℚ),
        (sortDocumentGroups (groupChunksByDocument candidates)).Pairwise
          (fun p q => q.2.maxSimilarity ≤ p.2.maxSimilarity))
    ∧ (∀ candidates : List (DocumentChunk ℚ),
        (2 ≤ ((sortDocumentGroups (groupChunksByDocument candidates)).filter
              (fun p => decide
                (HIGH_SIMILARITY_THRESHOLD ≤ p.2.maxSimilarity))).length →
          selectDocuments candidates
            = (sortDocumentGroups (groupChunksByDocument candidates)).take 2
          ∧ ∀ p ∈ selectDocuments candidates,
              HIGH_SIMILARITY_THRESHOLD ≤ p.2.maxSimilarity)
        ∧ (((sortDocumentGroups (groupChunksByDocument candidates)).filter
              (fun p => decide
                (HIGH_SIMILARITY_THRESHOLD ≤ p.2.maxSimilarity))).length ≤ 1 →
          selectDocuments candidates
            = (sortDocumentGroups (groupChunksByDocument candidates)).take 1))
    ∧ ((selectDocuments
          [{ id := "c1", document_id := "d1", chunk_index := 0,
             content := "x1", similarity := some (mkRat 3 4) },
           { id := "c2", document_id := "d2", chunk_index := 0,
             content := "x2", similarity := some (mkRat 13 20) },
           { id := "c3", document_id := "d3", chunk_index := 0,
             content := "x3", similarity := some (mkRat 11 20) }]).map Prod.fst
          = ["d1", "d2"]
        ∧ (selectDocuments
            [{ id := "cA", document_id := "dA", chunk_index := 0,
               content := "xA", similarity := some (mkRat 11 20) },
             { id := "cB", document_id := "dB", chunk_index := 0,
               content := "xB", similarity := some (mkRat 13 25) }]).map
            Prod.fst = ["dA"]) := by
  refine ⟨?_, ?_, ?_, ?_, by decide, by decide⟩
  · intro candidates
    unfold groupChunksByDocument
    exact groupFold_skips_low candidates []
  · intro candidates
    exact groupFold_inv candidates [] (fun p hp => absurd hp (List.not_mem_nil p))
  · intro candidates
    exact sortDescBy_pairwise _ _
  · intro candidates
    constructor
    · intro h2
      have hsorted := sortDescBy_pairwise
        (fun p : String × GroupData ℚ => p.2.maxSimilarity)
        (groupChunksByDocument candidates)
      have hsel : selectDocuments candidates
          = ((sortDocumentGroups (groupChunksByDocument candidates)).filter
              (fun p => decide
                (HIGH_SIMILARITY_THRESHOLD ≤ p.2.maxSimilarity))).take 2 := by
        unfold selectDocuments
        rw [if_pos (by omega)]
      constructor
      · rw [hsel]
        exact filter_ge_take_two _ _ _ hsorted h2
      · intro p hp
        rw [hsel] at hp
        have hp' := List.mem_of_mem_take hp
        simpa using (List.mem_filter.mp hp').2
    · intro h1
      unfold selectDocuments
      rw [if_neg (by omega)]

/-- Witness for C1: the high-similarity branch fires on the three-group
example. -/
theorem C1_aggregation_selection_witness :
    selectDocuments
        [{ id := "c1", document_id := "d1", chunk_index := 0,
           content := "x1", similarity := some (mkRat 3 4) },
         { id := "c2", document_id := "d2", chunk_index := 0,
           content := "x2", similarity := some (mkRat 13 20) },
         { id := "c3", document_id := "d3", chunk_index := 0,
           content := "x3", similarity := some (mkRat 11 20) }]
      = (sortDocumentGroups (groupChunksByDocument
          [{ id := "c1", document_id := "d1", chunk_index := 0,
             content := "x1", similarity := some (mkRat 3 4) },
           { id := "c2", document_id := "d2", chunk_index := 0,
             content := "x2", similarity := some (mkRat 13 20) },
           { id := "c3", document_id := "d3", chunk_index := 0,
             content := "x3", similarity := some (mkRat 11 20) }])).take 2 :=
  ((C1_aggregation_selection.2.2.2.1 _).1 (by decide)).1

/-! ### C2, C3 — cosine similarity algebra -/

theorem sumSq_nonneg (a : List ℝ) : 0 ≤ sumSq a := by
  unfold sumSq
  apply List.sum_nonneg
  intro x hx
  rcases List.mem_map.mp hx with ⟨v, _, rfl⟩
  exact mul_self_nonneg v

theorem sumSq_cons (v : ℝ) (a : List ℝ) : sumSq (v :: a) = v * v + sumSq a := by
  unfold sumSq
  rw [List.map_cons, List.sum_cons]

theorem sumSq_pos (a : List ℝ) (h : ∃ x ∈ a, x ≠ 0) : 0 < sumSq a := by
  obtain ⟨x, hx, hx0⟩ := h
  induction a with
  | nil => simp at hx
  | cons v vs ih =>
    rw [sumSq_cons]
    rcases List.mem_cons.mp hx with rfl | hx'
    · have h1 : 0 < x * x := mul_self_pos.mpr hx0
      have h2 := sumSq_nonneg vs
      linarith
    · have h1 := ih hx'
      have h2 := mul_self_nonneg v
      linarith

theorem dotProduct_cons (x y : ℝ) (a b : List ℝ) :
    dotProduct (x :: a) (y :: b) = x * y + dotProduct a b := by
  unfold dotProduct
  rw [List.zip_cons_cons, List.map_cons, List.sum_cons]

theorem dotProduct_self (a : List ℝ) : dotProduct a a = sumSq a := by
  induction a with
  | nil => rfl
  | cons v vs ih => rw [dotProduct_cons, sumSq_cons, ih]

theorem dotProduct_comm : ∀ a b : List ℝ, dotProduct a b = dotProduct b a
  | [], [] => rfl
  | [], _ :: _ => rfl
  | _ :: _, [] => rfl
  | x :: as, y :: bs => by
    rw [dotProduct_cons, dotProduct_cons, mul_comm, dotProduct_comm as bs]

/-- Cauchy–Schwarz for the list dot product. -/
theorem dotProduct_sq_le : ∀ a b : List ℝ,
    (dotProduct a b) ^ 2 ≤ sumSq a * sumSq b
  | [], b => by
    have h0 : dotProduct [] b = 0 := rfl
    have h1 : sumSq [] = 0 := rfl
    rw [h0, h1, zero_mul]
    norm_num
  | x :: as, [] => by
    have h0 : dotProduct (x :: as) [] = 0 := by
      unfold dotProduct
      rw [List.zip_nil_right, List.map_nil, List.sum_nil]
    have h1 : sumSq [] = 0 := rfl
    rw [h0, h1, mul_zero]
    norm_num
  | x :: as, y :: bs => by
    have IH := dotProduct_sq_le as bs
    have hSA := sumSq_nonneg as
    have hSB := sumSq_nonneg bs
    rw [dotProduct_cons, sumSq_cons, sumSq_cons]
    rcases eq_or_lt_of_le hSB with hSB0 | hSBpos
    · have hD : dotProduct as bs = 0 := by
        have h1 : (dotProduct as bs) ^ 2 ≤ 0 := by nlinarith
        nlinarith [sq_nonneg (dotProduct as bs)]
      rw [hD, ← hSB0]
      nlinarith [mul_nonneg hSA (mul_self_nonneg y)]
    · nlinarith [sq_nonneg (x * sumSq bs - y * dotProduct as bs),
        mul_nonneg (mul_self_nonneg y) (sub_nonneg.mpr IH),
        mul_nonneg hSBpos.le (sub_nonneg.mpr IH)]

theorem magnitude_nonneg (a : List ℝ) : 0 ≤ magnitude a :=
  Real.sqrt_nonneg _

theorem magnitude_eq_zero_iff (a : List ℝ) :
    magnitude a = 0 ↔ sumSq a = 0 := by
  unfold magnitude
  rw [Real.sqrt_eq_zero (sumSq_nonneg a)]

theorem abs_dotProduct_le (a b : List ℝ) :
    |dotProduct a b| ≤ magnitude a * magnitude b := by
  have h1 : Real.sqrt ((dotProduct a b) ^ 2)
      ≤ Real.sqrt (sumSq a * sumSq b) :=
    Real.sqrt_le_sqrt (dotProduct_sq_le a b)
  rw [Real.sqrt_sq_eq_abs, Real.sqrt_mul (sumSq_nonneg a)] at h1
  exact h1

/-- C2: cosine similarity of a nonzero vector with itself is 1; cosine
similarity is symmetric; and it returns 0 on mismatched dimensions or when
either vector has zero magnitude. -/
theorem C2_cosine_properties :
    (∀ a : List ℝ, (∃ x ∈ a, x ≠ 0) → cosineSimilarity a a = 1)
    ∧ (∀ a b : List ℝ, cosineSimilarity a b = cosineSimilarity b a)
    ∧ (∀ a b : List ℝ, a.length ≠ b.length → cosineSimilarity a b = 0)
    ∧ (∀ a b : List ℝ, magnitude a = 0 ∨ magnitude b = 0 →
        cosineSimilarity a b = 0) := by
  refine ⟨?_, ?_, ?_, ?_⟩
  · intro a ha
    have hpos := sumSq_pos a ha
    have hmag : ¬ (magnitude a = 0 ∨ magnitude a = 0) := by
      rw [or_self, magnitude_eq_zero_iff]
      exact ne_of_gt hpos
    unfold cosineSimilarity
    rw [if_neg (by simp), if_neg hmag, dotProduct_self]
    unfold magnitude
    rw [Real.mul_self_sqrt (sumSq_nonneg a)]
    exact div_self (ne_of_gt hpos)
  · intro a b
    unfold cosineSimilarity
    by_cases hlen : a.length = b.length
    · have h1 : ¬ (a.length ≠ b.length) := not_ne_iff.mpr hlen
      have h2 : ¬ (b.length ≠ a.length) := not_ne_iff.mpr hlen.symm
      rw [if_neg h1, if_neg h2]
      by_cases hz : magnitude a = 0 ∨ magnitude b = 0
      · rw [if_pos hz, if_pos (Or.symm hz)]
      · rw [if_neg hz, if_neg (fun h => hz (Or.symm h)), dotProduct_comm,
          mul_comm]
    · rw [if_pos hlen, if_pos (Ne.symm hlen)]
  · intro a b hlen
    unfold cosineSimilarity
    rw [if_pos hlen]
  · intro a b hz
    unfold cosineSimilarity
    by_cases hlen : a.length ≠ b.length
    · rw [if_pos hlen]
    · rw [if_neg hlen, if_pos hz]

/-- Witness for C2 at concrete vectors. -/
theorem C2_cosine_properties_witness :
    cosineSimilarity [(1 : ℝ)] [(1 : ℝ)] = 1
    ∧ cosineSimilarity [(1 : ℝ)] [(1 : ℝ), (0 : ℝ)] = 0
    ∧ cosineSimilarity [(0 : ℝ)] [(1 : ℝ)] = 0 :=
  ⟨C2_cosine_properties.1 [1] ⟨1, by simp, one_ne_zero⟩,
    C2_cosine_properties.2.2.1 [1] [1, 0] (by simp),
    C2_cosine_properties.2.2.2 [0] [1] (Or.inl (by
      rw [magnitude_eq_zero_iff]
      simp [sumSq]))⟩

/-- C3 counterexample: the vectors `[1]` and `[-1]` have equal dimension 1,
yet `cosineSimilarity` returns `-1 < 0` — the similarity score is not
clamped at 0 for equal-dimension vectors. -/
theorem C3_counterexample_negative_similarity :
    ([(1 : ℝ)].length = [(-1 : ℝ)].length)
    ∧ cosineSimilarity [(1 : ℝ)] [(-1 : ℝ)] = -1 := by
  refine ⟨rfl, ?_⟩
  have hmag1 : magnitude [(1 : ℝ)] = 1 := by
    unfold magnitude
    norm_num [sumSq, Real.sqrt_one]
  have hmag2 : magnitude [(-1 : ℝ)] = 1 := by
    unfold magnitude
    norm_num [sumSq, Real.sqrt_one]
  unfold cosineSimilarity
  rw [if_neg (by simp), hmag1, hmag2, if_neg (by norm_num)]
  norm_num [dotProduct]

/-- C3 (amended): every similarity score returned by `cosineSimilarity`
lies in `[-1, 1]` (not `[0, 1]`: equal-dimension vectors can score
negatively), and the score is 0 whenever the dimensions mismatch or either
vector has zero magnitude. -/
theorem C3_similarity_range :
    (∀ a b : List ℝ, -1 ≤ cosineSimilarity a b ∧ cosineSimilarity a b ≤ 1)
    ∧ (∀ a b : List ℝ,
        a.length ≠ b.length ∨ magnitude a = 0 ∨ magnitude b = 0 →
        cosineSimilarity a b = 0) := by
  constructor
  · intro a b
    unfold cosineSimilarity
    by_cases hlen : a.length ≠ b.length
    · rw [if_pos hlen]
      norm_num
    · rw [if_neg hlen]
      by_cases hz : magnitude a = 0 ∨ magnitude b = 0
      · rw [if_pos hz]
        norm_num
      · rw [if_neg hz]
        push_neg at hz
        have hA : 0 < magnitude a :=
          (magnitude_nonneg a).lt_of_ne (Ne.symm hz.1)
        have hB : 0 < magnitude b :=
          (magnitude_nonneg b).lt_of_ne (Ne.symm hz.2)
        have hdiv : |dotProduct a b / (magnitude a * magnitude b)| ≤ 1 := by
          rw [abs_div, abs_of_pos (mul_pos hA hB)]
          exact div_le_one_of_le₀ (abs_dotProduct_le a b)
            (le_of_lt (mul_pos hA hB))
        exact abs_le.mp hdiv
  · intro a b h
    unfold cosineSimilarity
    rcases h with hlen | hz
    · rw [if_pos hlen]
    · by_cases hlen : a.length ≠ b.length
      · rw [if_pos hlen]
      · rw [if_neg hlen, if_pos hz]

/-- Witness for C3 at the counterexample vectors and a mismatched pair. -/
theorem C3_similarity_range_witness :
    (-1 ≤ cosineSimilarity [(1 : ℝ)] [(-1 : ℝ)]
      ∧ cosineSimilarity [(1 : ℝ)] [(-1 : ℝ)] ≤ 1)
    ∧ cosineSimilarity [(1 : ℝ)] [] = 0 :=
  ⟨C3_similarity_range.1 [1] [-1],
    C3_similarity_range.2 [1] [] (Or.inl (by simp))⟩

/-! ### C5, C6 — brute-force fallback search contract and error semantics -/

/-- C5: the brute-force fallback fetches at most 200 chunks, all carrying
embeddings; it accepts embeddings encoded as numeric arrays or as parsed
JSON strings; every returned candidate comes from a fetched row whose
decoded embedding is nonempty and matches the query dimension and carries
that row's cosine similarity; the result is sorted by similarity descending
and has at most `2 * limit` entries; and no similarity threshold is applied:
every valid candidate appears in the sorted list before truncation,
whatever its similarity value. -/
theorem C5_bruteforce_fallback_contract (query : List ℝ) (limit : Nat)
    (db : List StoredChunkRow) :
    (fetchEmbeddedChunks db).length ≤ FALLBACK_FETCH_LIMIT
    ∧ (∀ r ∈ fetchEmbeddedChunks db, r.embedding.isSome = true ∧ r ∈ db)
    ∧ (∀ v : List ℝ, decodeStoredEmbedding (some (.arr v)) = some v
        ∧ decodeStoredEmbedding (some (.jsonStr (some v))) = some v)
    ∧ (bruteForceRank query limit (fetchEmbeddedChunks db)).length ≤ limit * 2
    ∧ (bruteForceRank query limit (fetchEmbeddedChunks db)).Pairwise
        (fun c d => simKey d ≤ simKey c)
    ∧ (∀ c ∈ bruteForceRank query limit (fetchEmbeddedChunks db),
        ∃ r ∈ fetchEmbeddedChunks db, ∃ e : List ℝ,
          decodeStoredEmbedding r.embedding = some e
          ∧ e ≠ [] ∧ e.length = query.length
          ∧ c.similarity = some (cosineSimilarity query e))
    ∧ (∀ r ∈ fetchEmbeddedChunks db, ∀ c, candidateOfRow query r = some c →
        c ∈ sortDescBy simKey
          ((fetchEmbeddedChunks db).filterMap (candidateOfRow query))) := by
  refine ⟨?_, ?_, fun v => ⟨rfl, rfl⟩, ?_, ?_, ?_, ?_⟩
  · exact List.length_take_le _ _
  · intro r hr
    have hr' := List.mem_of_mem_take hr
    have := List.mem_filter.mp hr'
    exact ⟨this.2, this.1⟩
  · exact List.length_take_le _ _
  · exact List.Pairwise.sublist (List.take_sublist _ _)
      (sortDescBy_pairwise simKey _)
  · intro c hc
    have hc1 := List.mem_of_mem_take hc
    have hc2 := (sortDescBy_perm simKey _).mem_iff.mp hc1
    rcases List.mem_filterMap.mp hc2 with ⟨r, hr, hsome⟩
    refine ⟨r, hr, ?_⟩
    unfold candidateOfRow at hsome
    cases hdec : decodeStoredEmbedding r.embedding with
    | none =>
      simp only [hdec] at hsome
      cases hsome
    | some e =>
      simp only [hdec] at hsome
      by_cases h0 : e.length = 0
      · rw [if_pos h0] at hsome
        cases hsome
      · rw [if_neg h0] at hsome
        by_cases hd : e.length ≠ query.length
        · rw [if_pos hd] at hsome
          cases hsome
        · rw [if_neg hd] at hsome
          refine ⟨e, rfl, fun hnil => h0 (by rw [hnil]; rfl),
            not_ne_iff.mp hd, ?_⟩
          cases hsome
          rfl
  · intro r hr c hcand
    exact (sortDescBy_perm simKey _).mem_iff.mpr
      (List.mem_filterMap.mpr ⟨r, hr, hcand⟩)

/-- Witness for C5: a one-row database whose single valid candidate appears
in the ranked list. -/
theorem C5_bruteforce_fallback_contract_witness :
    ({ id := "c", document_id := "d", chunk_index := 0, content := "t",
       embedding := some [(1 : ℝ)],
       similarity := some (cosineSimilarity [(1 : ℝ)] [(1 : ℝ)]) }
        : DocumentChunk ℝ)
      ∈ sortDescBy simKey
        ((fetchEmbeddedChunks
            [{ id := "c", document_id := "d", chunk_index := 0,
               content := "t",
               embedding := some (.arr [(1 : ℝ)]) }]).filterMap
          (candidateOfRow [(1 : ℝ)])) :=
  (C5_bruteforce_fallback_contract [(1 : ℝ)] 1
      [{ id := "c", document_id := "d", chunk_index := 0, content := "t",
         embedding := some (.arr [(1 : ℝ)]) }]).2.2.2.2.2.2
    _ (List.mem_singleton.mpr rfl) _ rfl

/-- C6: if neither the server-side function nor the embedding data is
reachable, `searchSimilarChunks` returns the empty list rather than
raising (the enclosing catch turns a fetch failure into `[]`, and an empty
table yields `[]`); and a malformed row — undecodable, empty, or of
mismatched dimension — produces no candidate and its removal from the row
list leaves the brute-force result of the remaining rows unchanged, so one
bad row never aborts the whole search. -/
theorem C6_search_error_semantics :
    (∀ (query : List ℝ) (limit : Nat),
        searchSimilarChunks .unavailable .failed query limit = [])
    ∧ (∀ (query : List ℝ) (limit : Nat),
        searchSimilarChunks .unavailable (.ok []) query limit = [])
    ∧ (∀ (query : List ℝ) (r : StoredChunkRow),
        decodeStoredEmbedding r.embedding = none →
          candidateOfRow query r = none)
    ∧ (∀ (query : List ℝ) (r : StoredChunkRow) (e : List ℝ),
        decodeStoredEmbedding r.embedding = some e →
          (e.length = 0 ∨ e.length ≠ query.length) →
          candidateOfRow query r = none)
    ∧ (∀ (query : List ℝ) (limit : Nat) (pre post : List StoredChunkRow)
        (bad : StoredChunkRow), candidateOfRow query bad = none →
          bruteForceRank query limit (pre ++ bad :: post)
            = bruteForceRank query limit (pre ++ post)) := by
  refine ⟨fun _ _ => rfl, fun _ _ => rfl, ?_, ?_, ?_⟩
  · intro query r h
    unfold candidateOfRow
    simp only [h]
  · intro query r e hdec hbad
    unfold candidateOfRow
    simp only [hdec]
    rcases hbad with h0 | hd
    · rw [if_pos h0]
    · by_cases h0 : e.length = 0
      · rw [if_pos h0]
      · rw [if_neg h0, if_pos hd]
  · intro query limit pre post bad hbad
    unfold bruteForceRank
    rw [List.filterMap_append, List.filterMap_cons, hbad,
      ← List.filterMap_append]

/-- Witness for C6: an undecodable row is skipped without affecting the
search over the remaining rows. -/
theorem C6_search_error_semantics_witness :
    candidateOfRow [(1 : ℝ)]
        { id := "x", document_id := "d", chunk_index := 0, content := "t",
          embedding := some .other } = none
    ∧ bruteForceRank [(1 : ℝ)] 1
        [{ id := "x", document_id := "d", chunk_index := 0, content := "t",
           embedding := some .other }]
      = bruteForceRank [(1 : ℝ)] 1 [] :=
  ⟨rfl,
    C6_search_error_semantics.2.2.2.2 [(1 : ℝ)] 1 [] []
      { id := "x", document_id := "d", chunk_index := 0, content := "t",
        embedding := some .other } rfl⟩

end KnowledgeAI
